import Mathlib

/-!
Verification of the Hashback backup engine's core protocol, as a shallow
embedding of the Python sources (`hashback/protocol.py`,
`hashback/local_database.py`, `hashback/algorithms.py`).

Conventions of the embedding:
* byte sequences are `List Nat` with every element below 256;
* datetimes are Unix timestamps (`Int`, whole seconds); an `Inode`'s
  `modified_time` is kept as its serialised ISO-8601 text, which is the only
  form the directory codec ever touches;
* the content-addressed store and the session staging area are modelled by
  the lists of keys they hold; a stored directory blob is a key/value pair;
* fallible operations return `Except ErrKind`.
-/

deriving instance DecidableEq for Except

namespace Hashback

/-- Error kinds.  The first nine mirror the exception classes of
`protocol.py` (`NotFoundException`, `DuplicateBackup`, `SessionClosed`,
`InvalidArgumentsError`, `ProtocolError`, `InvalidResponseError`,
`InternalServerError`) together with `already_exists` and
`authentication_failed` from the spec's closed error taxonomy (§7) whose class
declarations are not part of this source snapshot (only their raise sites
are).  The last four model raw Python exceptions (`ValueError`,
`FileExistsError`, `FileNotFoundError`, `TypeError`) that are not members of
the protocol's taxonomy. -/
inductive ErrKind where
  | notFound
  | duplicateBackup
  | alreadyExists
  | sessionClosed
  | invalidArguments
  | protocolError
  | invalidResponse
  | internal
  | authenticationFailed
  | valueError
  | fileExists
  | fileNotFound
  | typeError
deriving DecidableEq, Repr

/-- Server-side wire mapping of a raised exception to an error kind, from
`server/app.py`: `RequestException`/`ProtocolError` subclasses pass through
with their own kind, every other exception falls to the generic handler which
reports `InternalServerError`. -/
def wire_error_kind : ErrKind → ErrKind
  | .valueError => .internal
  | .fileExists => .internal
  | .fileNotFound => .internal
  | .typeError => .internal
  | e => e

/-- File types, from `protocol.FileType` with their serialised values. -/
inductive FileType where
  | regular
  | directory
  | character_device
  | block_device
  | socket
  | pipe
  | link
deriving DecidableEq, Repr

/-- The wire value of a `FileType` (the Python enum's `value`). -/
def FileType.value : FileType → String
  | .regular => "f"
  | .directory => "d"
  | .character_device => "c"
  | .block_device => "b"
  | .socket => "s"
  | .pipe => "p"
  | .link => "l"

/-- An inode record, from `protocol.Inode`.  `modified_time` is carried as
its ISO-8601 serialised text (the codec only ever embeds that text).
Pydantic's model equality compares every field, which `DecidableEq` mirrors. -/
structure Inode where
  modified_time : String
  type : FileType
  mode : Nat
  size : Nat
  uid : Nat
  gid : Nat
  hash : Option String := none
deriving DecidableEq, Repr

/-- A directory: a mapping from child name to inode, from
`protocol.Directory`.  The Python `Dict` preserves insertion order, so the
children are a (duplicate-free) association list. -/
structure Directory where
  children : List (String × Inode)
deriving DecidableEq, Repr

/-! ## JSON serialisation (the directory codec)

`Directory.dump` is `self.json(sort_keys=True).encode()`: `json.dumps` of the
name-to-inode mapping with recursively sorted keys, default separators
`", "` and `": "`, and `ensure_ascii=True` so the output is pure ASCII. -/

/-- Hex digit characters, lowercase, as produced by Python. -/
def hexDigitChar (n : Nat) : Char :=
  if n < 10 then Char.ofNat (48 + n) else Char.ofNat (87 + n)

/-- Four hex digits of a code point, for a JSON `\uXXXX` escape. -/
def hexEsc4 (n : Nat) : List Char :=
  [hexDigitChar (n / 4096 % 16), hexDigitChar (n / 256 % 16),
   hexDigitChar (n / 16 % 16), hexDigitChar (n % 16)]

/-- JSON escaping of one character, following `json.dumps` with its default
`ensure_ascii=True`: printable ASCII other than quote and backslash is kept,
everything else is escaped. -/
def jsonEscapeChar (c : Char) : List Char :=
  if c = '"' then ['\\', '"']
  else if c = '\\' then ['\\', '\\']
  else if c.toNat = 8 then ['\\', 'b']
  else if c.toNat = 9 then ['\\', 't']
  else if c.toNat = 10 then ['\\', 'n']
  else if c.toNat = 12 then ['\\', 'f']
  else if c.toNat = 13 then ['\\', 'r']
  else if 32 ≤ c.toNat ∧ c.toNat ≤ 126 then [c]
  else if c.toNat < 65536 then '\\' :: 'u' :: hexEsc4 c.toNat
  else
    let v := c.toNat - 65536
    ('\\' :: 'u' :: hexEsc4 (55296 + v / 1024)) ++ ('\\' :: 'u' :: hexEsc4 (56320 + v % 1024))

/-- A JSON string literal for `s`. -/
def jsonStr (s : String) : String :=
  ⟨'"' :: (s.data.map jsonEscapeChar).flatten ++ ['"']⟩

/-- JSON for an optional string (`null` when absent). -/
def jsonOptStr : Option String → String
  | none => "null"
  | some s => jsonStr s

/-- JSON object for one inode.  `json.dumps(..., sort_keys=True)` sorts keys
recursively, so the field names appear in alphabetical order: `gid`, `hash`,
`mode`, `modified_time`, `size`, `type`, `uid`. -/
def Inode.json (i : Inode) : String :=
  "\x7b\"gid\": " ++ toString i.gid ++
  ", \"hash\": " ++ jsonOptStr i.hash ++
  ", \"mode\": " ++ toString i.mode ++
  ", \"modified_time\": " ++ jsonStr i.modified_time ++
  ", \"size\": " ++ toString i.size ++
  ", \"type\": " ++ jsonStr i.type.value ++
  ", \"uid\": " ++ toString i.uid ++ "\x7d"

/-- Keys-only order used to sort directory entries, Python's `sorted` on the
mapping's items (keys are unique, so the key decides). -/
def entryLE (a b : String × Inode) : Prop := a.1 ≤ b.1

instance : DecidableRel entryLE := fun a b => inferInstanceAs (Decidable (a.1 ≤ b.1))

instance : IsTotal (String × Inode) entryLE :=
  ⟨fun a b => le_total a.1 b.1⟩

instance : IsTrans (String × Inode) entryLE :=
  ⟨fun _ _ _ h1 h2 => le_trans h1 h2⟩

/-- Serialise directory entries in the order given, without sorting. -/
def renderEntries (l : List (String × Inode)) : String :=
  "\x7b" ++ String.intercalate ", " (l.map (fun e => jsonStr e.1 ++ ": " ++ e.2.json)) ++ "\x7d"

/-- The canonical serialisation of a directory, from `Directory.dump`:
the JSON object with lexicographically sorted keys. -/
def Directory.dump (d : Directory) : String :=
  renderEntries (d.children.insertionSort entryLE)

/-- UTF-8 bytes of an ASCII string (the codec's output is pure ASCII because
of `ensure_ascii`, so UTF-8 encoding is the identity on code points). -/
def asciiBytes (s : String) : List Nat :=
  s.data.map Char.toNat

/-! ## SHA-256 (FIPS 180-4), executable over byte lists

This is `hashlib.sha256(...).hexdigest()` as the protocol uses it: digests
are 64 lowercase hex characters.  Words are `Nat` reduced mod `2 ^ 32`. -/

/-- Two to the thirty-two, the word modulus. -/
def w32 : Nat := 4294967296

/-- Right rotation of a 32-bit word by `n` places. -/
def rotWord (n x : Nat) : Nat :=
  ((x >>> n) ||| (x <<< (32 - n))) % w32

/-- Bitwise complement within 32 bits. -/
def compl32 (x : Nat) : Nat := x ^^^ 4294967295

/-- The choose function of the compression rounds. -/
def chooseFn (x y z : Nat) : Nat := (x &&& y) ^^^ (compl32 x &&& z)

/-- The majority function of the compression rounds. -/
def majorityFn (x y z : Nat) : Nat := (x &&& y) ^^^ (x &&& z) ^^^ (y &&& z)

/-- The Σ₀ mixing function. -/
def upperSigma0 (x : Nat) : Nat := rotWord 2 x ^^^ rotWord 13 x ^^^ rotWord 22 x

/-- The Σ₁ mixing function. -/
def upperSigma1 (x : Nat) : Nat := rotWord 6 x ^^^ rotWord 11 x ^^^ rotWord 25 x

/-- The σ₀ schedule function. -/
def lowerSigma0 (x : Nat) : Nat := rotWord 7 x ^^^ rotWord 18 x ^^^ (x >>> 3)

/-- The σ₁ schedule function. -/
def lowerSigma1 (x : Nat) : Nat := rotWord 17 x ^^^ rotWord 19 x ^^^ (x >>> 10)

/-- The 64 round constants of FIPS 180-4 (decimal). -/
def sha256K : List Nat :=
  [1116352408, 1899447441, 3049323471, 3921009573, 961987163,
   1508970993, 2453635748, 2870763221, 3624381080, 310598401,
   607225278, 1426881987, 1925078388, 2162078206, 2614888103,
   3248222580, 3835390401, 4022224774, 264347078, 604807628,
   770255983, 1249150122, 1555081692, 1996064986, 2554220882,
   2821834349, 2952996808, 3210313671, 3336571891, 3584528711,
   113926993, 338241895, 666307205, 773529912, 1294757372,
   1396182291, 1695183700, 1986661051, 2177026350, 2456956037,
   2730485921, 2820302411, 3259730800, 3345764771, 3516065817,
   3600352804, 4094571909, 275423344, 430227734, 506948616,
   659060556, 883997877, 958139571, 1322822218, 1537002063,
   1747873779, 1955562222, 2024104815, 2227730452, 2361852424,
   2428436474, 2756734187, 3204031479, 3329325298]

/-- The initial hash state of FIPS 180-4 (decimal). -/
def sha256H0 : List Nat :=
  [1779033703, 3144134277, 1013904242, 2773480762, 1359893119,
   2600822924, 528734635, 1541459225]

/-- Big-endian bytes of a 64-bit length field. -/
def lenBytes64 (n : Nat) : List Nat :=
  [n >>> 56 % 256, n >>> 48 % 256, n >>> 40 % 256, n >>> 32 % 256,
   n >>> 24 % 256, n >>> 16 % 256, n >>> 8 % 256, n % 256]

/-- Padding: append `0x80`, zeros to 56 mod 64, and the bit length. -/
def sha256pad (msg : List Nat) : List Nat :=
  msg ++ 128 :: List.replicate ((64 + 55 - msg.length % 64) % 64) 0 ++ lenBytes64 (8 * msg.length)

/-- Big-endian 32-bit words from bytes. -/
def wordsOfBytes : List Nat → List Nat
  | a :: b :: c :: d :: rest => (((a * 256 + b) * 256 + c) * 256 + d) :: wordsOfBytes rest
  | _ => []

/-- Split a word list into 16-word blocks (padding makes the length a
multiple of 16, so the last clause never fires on padded input). -/
def chunks16 : List Nat → List (List Nat)
  | w1 :: w2 :: w3 :: w4 :: w5 :: w6 :: w7 :: w8 ::
    w9 :: w10 :: w11 :: w12 :: w13 :: w14 :: w15 :: w16 :: rest =>
    [w1, w2, w3, w4, w5, w6, w7, w8, w9, w10, w11, w12, w13, w14, w15, w16] :: chunks16 rest
  | [] => []
  | short => [short]

/-- Extend the 16-word block by `n` scheduled words. -/
def extendW (w : List Nat) : Nat → List Nat
  | 0 => w
  | n + 1 =>
    let v := extendW w n
    let t := v.length
    v ++ [(lowerSigma1 (v.getD (t - 2) 0) + v.getD (t - 7) 0 +
           lowerSigma0 (v.getD (t - 15) 0) + v.getD (t - 16) 0) % w32]

/-- One compression round on the eight-word working state. -/
def sha256round (s : List Nat) (kw : Nat × Nat) : List Nat :=
  match s with
  | [a, b, c, d, e, f, g, h] =>
    let t1 := (h + upperSigma1 e + chooseFn e f g + kw.1 + kw.2) % w32
    let t2 := (upperSigma0 a + majorityFn a b c) % w32
    [(t1 + t2) % w32, a, b, c, (d + t1) % w32, e, f, g]
  | _ => s

/-- Compress one 16-word block into the hash state. -/
def compressBlock (h : List Nat) (block : List Nat) : List Nat :=
  let w := extendW block 48
  let s := (sha256K.zip w).foldl sha256round h
  List.zipWith (fun x y => (x + y) % w32) h s

/-- The eight-word digest state of a byte message. -/
def sha256words (msg : List Nat) : List Nat :=
  (chunks16 (wordsOfBytes (sha256pad msg))).foldl compressBlock sha256H0

/-- Big-endian bytes of the digest words. -/
def bytesOfWords (ws : List Nat) : List Nat :=
  (ws.map (fun x => [x >>> 24 % 256, x >>> 16 % 256, x >>> 8 % 256, x % 256])).flatten

/-- Lowercase hex characters of one byte. -/
def byteHex (b : Nat) : List Char :=
  [hexDigitChar (b / 16), hexDigitChar (b % 16)]

/-- The SHA-256 lowercase hex digest of a byte message. -/
def sha256hex (msg : List Nat) : String :=
  ⟨((sha256words msg).flatMap (fun x => [x >>> 24 % 256, x >>> 16 % 256, x >>> 8 % 256, x % 256])).flatMap byteHex⟩

/-- Hash bytes to their digest, from `protocol.hash_content` (the bytes
branch). -/
def hash_content (content : List Nat) : String :=
  sha256hex content

/-- The directory identity, from `Directory.hash`: the digest of the
canonical serialisation, paired with the serialised content. -/
def Directory.hashPair (d : Directory) : String × String :=
  (hash_content (asciiBytes d.dump), d.dump)

/-! ## The backup session, from `local_database.py`

The main store and the session staging area (`new_objects`) are modelled by
the lists of keys they hold.  The sharding of `store_path_for` is a local
layout detail that never reaches a caller, so a key is the whole identity. -/

/-- The storage suffix marking directory objects, `DIR_SUFFIX`. -/
def DIR_SUFFIX : String := ".d"

/-- Whether an object is present in the main store or the session staging
area, from `LocalDatabaseBackupSession._object_exists`. -/
def object_exists (store staged : List String) (ref_hash : String) : Bool :=
  store.contains ref_hash || staged.contains ref_hash

/-- The storage key referenced by a child inode: its hash, with the
directory suffix appended when the child is a directory. -/
def inodeStoreKey (i : Inode) : String :=
  (i.hash.getD "") ++ (if i.type = FileType.directory then DIR_SUFFIX else "")

/-- Response of `directory_def`, from `protocol.DirectoryDefResponse`.
Every field is optional with these defaults; `missing_ref` is a server-side
reference to a failed attempt that a server MAY set. -/
structure DirectoryDefResponse where
  ref_hash : Option String := none
  missing_files : List String := []
  missing_ref : Option String := none
deriving DecidableEq, Repr

/-- The `success` property of a response: no missing files. -/
def DirectoryDefResponse.success (r : DirectoryDefResponse) : Bool :=
  r.missing_files.isEmpty

/-- The two-phase directory definition, from
`LocalDatabaseBackupSession.directory_def`.  Returns the response together
with the staging area after the call.  The `replaces` argument is accepted
and ignored, exactly as in the source body. -/
def directory_def (is_open : Bool) (store staged : List String) (definition : Directory)
    (replaces : Option String) : Except ErrKind (DirectoryDefResponse × List String) :=
  if !is_open then .error .sessionClosed
  else if definition.children.any (fun c => c.2.hash.isNone) then .error .invalidArguments
  else
    let dh := definition.hashPair
    if object_exists store staged (dh.1 ++ DIR_SUFFIX) then
      .ok ({ ref_hash := some dh.1 }, staged)
    else
      let missing := (definition.children.filter
        (fun c => !object_exists store staged (inodeStoreKey c.2))).map Prod.fst
      if missing.isEmpty then
        .ok ({ ref_hash := some dh.1 }, staged ++ [dh.1 ++ DIR_SUFFIX])
      else
        .ok ({ missing_files := missing }, staged)

/-! ## File upload with resume, from
`LocalDatabaseBackupSession.upload_file_content`

The call operates on the partial file at `_temp_path(resume_id)`, modelled
as `Option (List Nat)` (`none` when no partial file exists for that id). -/

/-- Bytes `[0, n)` of a file, any hole beyond EOF read as zero bytes — the
re-read loop of the completion path. -/
def readZeroPadded (f : List Nat) (n : Nat) : List Nat :=
  f.take n ++ List.replicate (n - f.length) 0

/-- Write `data` at offset `pos`, zero-filling any gap beyond EOF first —
the seek-and-write of the upload path. -/
def writeAt (f : List Nat) (pos : Nat) (data : List Nat) : List Nat :=
  readZeroPadded f pos ++ data ++ f.drop (pos + data.length)

/-- Outcome of one `upload_file_content` call: the partial file for this
`resume_id` after the call, the object staged into `new_objects` (key and
bytes) if any, and the returned digest. -/
structure UploadOutcome where
  pendingFile : Option (List Nat)
  newObject : Option (String × List Nat)
  result : Option String
deriving DecidableEq, Repr

/-- One `upload_file_content` call.  Mode is exclusive-create when
`resume_from` is absent (`FileExistsError` becomes `already_exists`) and
read/write otherwise (`FileNotFoundError` becomes `not_found`).  On
completion the bytes `[0, resume_from)` of the partial are re-read into the
running hash, the new content is hashed and written, and the partial is
renamed into staging under the digest key — or dropped when the digest
already exists in the store or staging. -/
def upload_file_content (is_open : Bool) (store staged : List String)
    (pendingFile : Option (List Nat)) (content : List Nat)
    (resume_from : Option Nat) (is_complete : Bool) : Except ErrKind UploadOutcome :=
  if !is_open then .error .sessionClosed
  else
    match resume_from, pendingFile with
    | none, some _ => .error .alreadyExists
    | some _, none => .error .notFound
    | none, none =>
      if is_complete then
        let ref := hash_content content
        if object_exists store staged ref then .ok ⟨none, none, some ref⟩
        else .ok ⟨none, some (ref, content), some ref⟩
      else .ok ⟨some content, none, none⟩
    | some rf, some f =>
      let newFile := writeAt f rf content
      if is_complete then
        let ref := hash_content (readZeroPadded f rf ++ content)
        if object_exists store staged ref then .ok ⟨none, none, some ref⟩
        else .ok ⟨none, some (ref, newFile), some ref⟩
      else .ok ⟨some newFile, none, none⟩

/-- Run a sequence of `is_complete=false` upload calls for one `resume_id`,
threading the partial file through. -/
def runUploads (store staged : List String) :
    Option (List Nat) → List (List Nat × Option Nat) → Except ErrKind (Option (List Nat))
  | st, [] => .ok st
  | st, (c, rf) :: rest =>
    match upload_file_content true store staged st c rf false with
    | .error e => .error e
    | .ok out => runUploads store staged out.pendingFile rest

/-- A call sequence has correctly increasing `resume_from`s: the first call
creates the partial (no `resume_from`) and every later call resumes exactly
at the current cursor, the partial's size (spec invariant 6). -/
def ValidSeq : Option (List Nat) → List (List Nat × Option Nat) → Bool
  | _, [] => true
  | none, (c, rf) :: rest => rf == none && ValidSeq (some c) rest
  | some f, (c, rf) :: rest => rf == some f.length && ValidSeq (some (f ++ c)) rest

/-- The cursor reported by `check_file_upload_size`: the partial's size. -/
def cursorOf : Option (List Nat) → Option Nat
  | none => none
  | some f => some f.length

/-- The whole resumable upload of one file: the non-final calls, then one
`is_complete=true` call resuming at the current cursor; returns the digest. -/
def runUploadSequence (store staged : List String) (calls : List (List Nat × Option Nat))
    (finalChunk : List Nat) : Except ErrKind (Option String) :=
  match runUploads store staged none calls with
  | .error e => .error e
  | .ok st =>
    match upload_file_content true store staged st finalChunk (cursorOf st) true with
    | .error e => .error e
    | .ok out => .ok out.result

/-! ## Dates, sessions and commit -/

/-- From `protocol.normalize_backup_date`: truncate the timestamp to the
granularity.  The `client_timezone` parameter is accepted and never used, as
in the source: the truncation is relative to the Unix epoch, hence in UTC.
`Int.emod` with a positive modulus matches Python `%` with a positive
divisor. -/
def normalize_backup_date (backup_date : Int) (backup_granularity : Int)
    (client_timezone : Int) : Int :=
  backup_date - backup_date % backup_granularity

/-- Modelled from the spec: "The backup-date after truncation to
`backup_granularity` in the client's timezone" — for 1-day granularity,
midnight of that date in the client's `named_timezone`.  `client_timezone`
is the zone's UTC offset in seconds at that date. -/
def normalize_backup_date_spec (backup_date : Int) (backup_granularity : Int)
    (client_timezone : Int) : Int :=
  backup_date - (backup_date + client_timezone) % backup_granularity

/-- From `LocalDatabaseServerSession.start_backup`.  `committed` is the set
of committed backups (their normalised-date keys); `sessions` the open
backup sessions (by backup date).  A duplicate is refused only when a
committed backup file exists at the normalised date; open sessions are not
consulted.  On success a fresh session directory is created.  Returns the
session's normalised date and the open sessions after the call. -/
def start_backup (granularity tz : Int) (committed sessions : List Int)
    (backup_date : Int) (allow_overwrite : Bool) : Except ErrKind (Int × List Int) :=
  let nd := normalize_backup_date backup_date granularity tz
  if !allow_overwrite && committed.contains nd then .error .duplicateBackup
  else .ok (nd, sessions ++ [nd])

/-- From `LocalDatabaseServerSession.get_directory`: a plain `ValueError`
(not a protocol error kind) when the inode is not a directory, then the
stored blob under the suffixed key.  `dirStore` maps storage keys to stored
directory blobs. -/
def get_directory (dirStore : List (String × Directory)) (inode : Inode) :
    Except ErrKind Directory :=
  if inode.type ≠ FileType.directory then .error .valueError
  else
    match inode.hash with
    | none => .error .typeError
    | some h =>
      match dirStore.find? (fun e => e.1 == h ++ DIR_SUFFIX) with
      | some e => .ok e.2
      | none => .error .fileNotFound

/-- A committed backup manifest, from `protocol.Backup`. -/
structure Backup where
  client_id : String
  client_name : String
  backup_date : Int
  started : Int
  completed : Int
  roots : List (String × Inode)
  description : Option String
deriving DecidableEq, Repr

/-- From `LocalDatabaseBackupSession.complete`: promote every staged object
into the main store (skipping keys that already exist), build the manifest
from the root records, write it under the normalised-date key (exclusive
unless `allow_overwrite`), then discard the session.  Returns the manifest,
the store and committed set after the call, and the session's `is_open`. -/
def BackupSession.complete (client_id client_name : String) (granularity tz : Int)
    (cfg_backup_date cfg_started : Int) (allow_overwrite : Bool)
    (description : Option String) (now : Int) (is_open : Bool)
    (store : List String) (committed : List Int)
    (newObjects : List String) (roots : List (String × Inode)) :
    Except ErrKind (Backup × List String × List Int × Bool) :=
  if !is_open then .error .sessionClosed
  else
    let store' := store ++ newObjects.filter (fun k => !store.contains k)
    let nd := normalize_backup_date cfg_backup_date granularity tz
    if !allow_overwrite && committed.contains nd then .error .fileExists
    else
      let committed' := if committed.contains nd then committed else committed ++ [nd]
      .ok (⟨client_id, client_name, nd, cfg_started, now, roots, description⟩,
           store', committed', false)

/-! ## The controller's metadata fast path, from
`algorithms.BackupController._spawn_scan_directory_tasks` -/

/-- What the per-child loop does with one child: keep the inode as is,
spawn a recursive directory task, or spawn a `_hash_file` task — the only
action that calls `open_child` on the child. -/
inductive ChildAction where
  | keep
  | recurseDirectory
  | hashFile
deriving DecidableEq, Repr

/-- Lookup of a child by name in the previous backup's directory. -/
def lookupChild (l : List (String × Inode)) (name : String) : Option Inode :=
  (l.find? (fun e => e.1 == name)).map Prod.snd

/-- The per-child decision of the scan loop: an inode whose hash is already
known is kept; a directory child is recursed into; otherwise, with
`match_meta_only` and the name present in the previous backup's directory,
the previous hash is copied and kept only when the inodes then compare
equal; a child still lacking a hash gets a `_hash_file` task. -/
def scanChild (match_meta_only : Bool) (lastBackupChildren : List (String × Inode))
    (childName : String) (childInode : Inode) : Inode × ChildAction :=
  if childInode.hash ≠ none then (childInode, .keep)
  else if childInode.type = FileType.directory then (childInode, .recurseDirectory)
  else
    let scanned :=
      if match_meta_only then
        match lookupChild lastBackupChildren childName with
        | some child_last_backup =>
          let copied := { childInode with hash := child_last_backup.hash }
          if copied ≠ child_last_backup then { copied with hash := none } else copied
        | none => childInode
      else childInode
    if scanned.hash = none then (scanned, .hashFile) else (scanned, .keep)

/-! ## Shared inputs for concrete witnesses and counterexamples -/

/-- A concrete regular-file inode whose object is absent from an empty
store. -/
def exInode : Inode :=
  { modified_time := "2024-01-01T00:00:00+00:00", type := FileType.regular,
    mode := 420, size := 5, uid := 0, gid := 0, hash := some "aaa" }

/-- A second concrete inode with a different hash. -/
def exInodeB : Inode :=
  { modified_time := "2024-01-01T00:00:00+00:00", type := FileType.regular,
    mode := 420, size := 7, uid := 0, gid := 0, hash := some "bbb" }

/-! ## Claims -/

/-- C4: the claim says `normalize_backup_date` truncates in the client's
configured time zone (midnight of the date in `named_timezone`, not midnight
UTC).  The code truncates the raw Unix timestamp, i.e. in UTC, and ignores
its `client_timezone` argument.  At 2024-01-02T06:00:00Z with 1-day
granularity and client timezone UTC-5 (America/New_York) the code yields
2024-01-02T00:00:00Z while the spec requires 2024-01-02T05:00:00Z
(= midnight in New York); the last conjunct shows the timezone argument is
ignored completely. -/
theorem normalize_backup_date_ignores_timezone :
    normalize_backup_date 1704175200 86400 (-18000) = 1704153600 ∧
    normalize_backup_date_spec 1704175200 86400 (-18000) = 1704171600 ∧
    normalize_backup_date 1704175200 86400 (-18000) ≠
      normalize_backup_date_spec 1704175200 86400 (-18000) ∧
    (∀ tz : Int, normalize_backup_date 1704175200 86400 tz = 1704153600) := by
  refine ⟨by decide, by decide, by decide, fun tz => ?_⟩
  show (1704175200 : Int) - 1704175200 % 86400 = 1704153600
  decide

/-- C7 counterexample: two successive `start_backup(d, allow_overwrite=false)`
calls with no `complete` between them both succeed — the second does not
fail with `duplicate_backup`, because the duplicate check only consults
committed backup files, not open sessions. -/
theorem start_backup_twice_no_duplicate :
    start_backup 86400 0 [] [] 1704175200 false = .ok (1704153600, [1704153600]) ∧
    start_backup 86400 0 [] [1704153600] 1704175200 false =
      .ok (1704153600, [1704153600, 1704153600]) ∧
    start_backup 86400 0 [] [1704153600] 1704175200 false ≠
      .error ErrKind.duplicateBackup := by
  refine ⟨by decide, by decide, by decide⟩

/-- C7 (amended): `start_backup(d, allow_overwrite=false)` fails with
`duplicate_backup` exactly when a committed backup exists at the normalised
date; with no committed backup there (in particular when only an open
session exists for that date) the call succeeds and opens another session. -/
theorem start_backup_duplicate_iff_committed (g tz d : Int)
    (committed sessions : List Int) :
    (normalize_backup_date d g tz ∈ committed →
      start_backup g tz committed sessions d false = .error ErrKind.duplicateBackup) ∧
    (normalize_backup_date d g tz ∉ committed →
      start_backup g tz committed sessions d false =
        .ok (normalize_backup_date d g tz,
             sessions ++ [normalize_backup_date d g tz])) := by
  constructor
  · intro h
    simp [start_backup, h]
  · intro h
    simp [start_backup, h]

/-- C7 witness: with a committed backup at the normalised date the second
call is refused; with none it succeeds. -/
theorem start_backup_duplicate_iff_committed_witness :
    start_backup 86400 0 [1704153600] [] 1704175200 false =
      .error ErrKind.duplicateBackup ∧
    start_backup 86400 0 [] [] 1704175200 false = .ok (1704153600, [1704153600]) := by
  exact ⟨(start_backup_duplicate_iff_committed 86400 0 1704175200 [1704153600] []).1 (by decide),
         (start_backup_duplicate_iff_committed 86400 0 1704175200 [] []).2 (by decide)⟩

/-- C8 counterexample: `get_directory` on a non-directory inode raises a
plain `ValueError`, which is not the `invalid_arguments` error kind — and
the HTTP server's generic handler reports such an exception as `internal`,
not `invalid_arguments`. -/
theorem get_directory_value_error :
    get_directory [] exInode = .error ErrKind.valueError ∧
    ErrKind.valueError ≠ ErrKind.invalidArguments ∧
    wire_error_kind ErrKind.valueError = ErrKind.internal ∧
    ErrKind.internal ≠ ErrKind.invalidArguments := by
  refine ⟨by decide, by decide, by decide, by decide⟩

/-- C8 (amended): for every inode whose type is not directory,
`get_directory` fails — with a raw `ValueError` (reported over the wire as
`internal`), not with `invalid_arguments` — and returns no `Directory`. -/
theorem get_directory_rejects_non_directory (dirStore : List (String × Directory))
    (inode : Inode) (h : inode.type ≠ FileType.directory) :
    get_directory dirStore inode = .error ErrKind.valueError ∧
    wire_error_kind ErrKind.valueError ≠ ErrKind.invalidArguments := by
  refine ⟨?_, by decide⟩
  simp [get_directory, h]

/-- C8 witness: the amended theorem at a concrete regular-file inode. -/
theorem get_directory_rejects_non_directory_witness :
    get_directory [] exInode = .error ErrKind.valueError ∧
    wire_error_kind ErrKind.valueError ≠ ErrKind.invalidArguments :=
  get_directory_rejects_non_directory [] exInode (by decide)

/-- C9 counterexample: after an upload completed (the partial file for the
`resume_id` is gone), a later call reusing that id with a `resume_from`
fails with `not_found`, not `already_exists`; and a later call without
`resume_from` simply starts a fresh upload without any error. -/
theorem upload_reuse_after_complete_not_already_exists :
    (upload_file_content true [] [] none [72, 105] none true).map
        (fun o => o.pendingFile) = .ok none ∧
    upload_file_content true [] [] none [1, 2] (some 2) true =
      .error ErrKind.notFound ∧
    upload_file_content true [] [] none [1] none false =
      .ok ⟨some [1], none, none⟩ ∧
    ErrKind.notFound ≠ ErrKind.alreadyExists := by
  refine ⟨by decide, by decide, by decide, by decide⟩

/-- C9 (amended): `already_exists` is raised exactly by the exclusive-create
mode: a call without `resume_from` while the partial file for that
`resume_id` still exists.  After completion the partial file is gone, so a
reusing call with `resume_from` fails `not_found` and a reusing call without
`resume_from` starts over as a fresh exclusive-create. -/
theorem upload_exclusive_create_semantics (store staged : List String)
    (f content : List Nat) (rf : Nat) (ic : Bool) :
    upload_file_content true store staged (some f) content none ic =
      .error ErrKind.alreadyExists ∧
    upload_file_content true store staged none content (some rf) ic =
      .error ErrKind.notFound := by
  constructor <;> simp [upload_file_content]

/-- C5: with `match_meta_only` on and the child present in the previous
backup's directory with an inode equal in every non-hash field, the scan
loop never spawns a `_hash_file` task for that child — `open_child` is never
called on it — and the child that lacked a hash gets the previous backup's
hash copied instead.  (Inodes stored in a committed directory always carry a
hash, `directory_def` validates this, hence the `prev.hash ≠ none`
hypothesis.) -/
theorem scan_meta_match_skips_hashing (lastC : List (String × Inode))
    (name : String) (cur prev : Inode)
    (hfind : lookupChild lastC name = some prev)
    (hprevhash : prev.hash ≠ none)
    (ht : cur.modified_time = prev.modified_time) (hty : cur.type = prev.type)
    (hm : cur.mode = prev.mode) (hs : cur.size = prev.size)
    (hu : cur.uid = prev.uid) (hg : cur.gid = prev.gid) :
    (scanChild true lastC name cur).2 ≠ ChildAction.hashFile ∧
    (cur.hash = none → cur.type ≠ FileType.directory →
      (scanChild true lastC name cur).1.hash = prev.hash) := by
  by_cases hh : cur.hash = none
  · by_cases hd : cur.type = FileType.directory
    · constructor
      · simp [scanChild, hh, hd]
      · intro _ hnd
        exact absurd hd hnd
    · have hcopied : { cur with hash := prev.hash } = prev := by
        cases cur
        cases prev
        simp_all
      have hrun : scanChild true lastC name cur =
          ({ cur with hash := prev.hash }, ChildAction.keep) := by
        simp only [scanChild, hh, ne_eq, not_true_eq_false, if_false, hd, if_true,
          hfind, hcopied, not_false_eq_true]
        simp [hcopied, hprevhash]
      constructor
      · simp [hrun]
      · intro _ _
        simp [hrun]
  · constructor
    · simp [scanChild, hh]
    · intro h
      exact absurd h hh

/-- C5 witness: the fast path at a concrete child whose metadata matches the
previous backup. -/
theorem scan_meta_match_skips_hashing_witness :
    (scanChild true [("f", exInode)] "f" { exInode with hash := none }).2 ≠
      ChildAction.hashFile ∧
    (({ exInode with hash := none } : Inode).hash = none →
      ({ exInode with hash := none } : Inode).type ≠ FileType.directory →
      (scanChild true [("f", exInode)] "f" { exInode with hash := none }).1.hash =
        exInode.hash) :=
  scan_meta_match_skips_hashing [("f", exInode)] "f" { exInode with hash := none }
    exInode (by decide) (by decide) (by decide) (by decide) (by decide) (by decide)
    (by decide) (by decide)

/-- C10: completing an open session on which `add_root_dir` was never called
(no root records) succeeds: the staged objects are promoted into the store
(skipping keys already present), the manifest is written with an empty
`roots` mapping, the session is closed, and no error is raised for the
absence of roots.  The `committed`-freshness hypothesis only rules out the
unrelated exclusive-create collision on the manifest file. -/
theorem complete_empty_roots (cid cname : String) (g tz bd st now : Int)
    (ao : Bool) (desc : Option String) (store : List String)
    (committed : List Int) (newObjects : List String)
    (hnew : normalize_backup_date bd g tz ∉ committed) :
    BackupSession.complete cid cname g tz bd st ao desc now true store committed
        newObjects [] =
      .ok (⟨cid, cname, normalize_backup_date bd g tz, st, now, [], desc⟩,
           store ++ newObjects.filter (fun k => !store.contains k),
           committed ++ [normalize_backup_date bd g tz], false) := by
  simp [BackupSession.complete, hnew]

/-- C10 witness: a concrete open session with staged objects and no roots
commits successfully with an empty roots mapping. -/
theorem complete_empty_roots_witness :
    BackupSession.complete "cid" "client" 86400 0 1704175200 1704175260 false none
        1704175300 true ["k1"] [] ["k1", "k2"] [] =
      .ok (⟨"cid", "client", 1704153600, 1704175260, 1704175300, [], none⟩,
           ["k1", "k2"], [1704153600], false) :=
  complete_empty_roots "cid" "client" 86400 0 1704175200 1704175260 1704175300
    false none ["k1"] [] ["k1", "k2"] (by decide)

/-- Characterisation of `directory_def` on an open session when the
directory blob is absent, every child has a hash, and at least one child's
object is missing: the response lists exactly the missing names, carries no
`ref_hash` and a null `missing_ref`, and the staging area is unchanged.
Shared by the theorems for C1 and C2. -/
theorem directory_def_missing_characterisation (store staged : List String)
    (d : Directory) (rep : Option String)
    (hhash : d.children.any (fun c => c.2.hash.isNone) = false)
    (hstored : object_exists store staged (d.hashPair.1 ++ DIR_SUFFIX) = false)
    (hmiss : ((d.children.filter
        (fun c => !object_exists store staged (inodeStoreKey c.2))).map
        Prod.fst).isEmpty = false) :
    directory_def true store staged d rep =
      .ok ({ ref_hash := none,
             missing_files := (d.children.filter
               (fun c => !object_exists store staged (inodeStoreKey c.2))).map
               Prod.fst,
             missing_ref := none }, staged) := by
  simp [directory_def, hhash, hstored, hmiss]

/-- C1 counterexample: a `directory_def` call whose only child's object is
absent from both the main store and the staging area returns the missing
name with `missing_ref = none` — the local database never issues the
non-null `missing_ref` the claim requires. -/
theorem directory_def_missing_ref_is_null_counterexample :
    directory_def true [] [] ⟨[("a", exInode)]⟩ none =
      .ok ({ ref_hash := none, missing_files := ["a"], missing_ref := none }, []) ∧
    (["a"] : List String) ≠ [] := by
  refine ⟨by decide, by decide⟩

/-- C1 (amended): when at least one child's referenced object is absent from
both the main store and the session staging area, the response lists the
missing names, but its `missing_ref` is null: `missing_ref` is an optional
field a server MAY use to track failed attempts, and
`LocalDatabaseBackupSession.directory_def` never sets it. -/
theorem directory_def_missing_ref_is_null (store staged : List String)
    (d : Directory) (rep : Option String)
    (hhash : d.children.any (fun c => c.2.hash.isNone) = false)
    (hstored : object_exists store staged (d.hashPair.1 ++ DIR_SUFFIX) = false)
    (hmiss : ((d.children.filter
        (fun c => !object_exists store staged (inodeStoreKey c.2))).map
        Prod.fst).isEmpty = false) :
    ∃ r : DirectoryDefResponse, directory_def true store staged d rep = .ok (r, staged) ∧
      r.missing_files ≠ [] ∧ r.missing_ref = none := by
  refine ⟨_, directory_def_missing_characterisation store staged d rep hhash hstored hmiss,
    ?_, rfl⟩
  intro hempty
  simp only [DirectoryDefResponse.missing_files] at hempty
  rw [hempty] at hmiss
  simp at hmiss

/-- C1 witness: the amended theorem at a concrete one-child directory over
an empty store. -/
theorem directory_def_missing_ref_is_null_witness :
    ∃ r : DirectoryDefResponse,
      directory_def true [] [] ⟨[("a", exInode)]⟩ none = .ok (r, []) ∧
      r.missing_files ≠ [] ∧ r.missing_ref = none :=
  directory_def_missing_ref_is_null [] [] ⟨[("a", exInode)]⟩ none
    (by decide) (by decide) (by decide)

/-- C2: on an open session, when the directory blob is not already stored
and every child has a hash, the response's `missing_files` is exactly the
children whose object key (the hash, suffixed with `.d` for directories) is
in neither the main store nor the staging area; and when that set is
nonempty the staging area is returned unchanged — no directory blob is
written (the call never touches the main store at all). -/
theorem directory_def_missing_files_exact (store staged : List String)
    (d : Directory) (rep : Option String)
    (hhash : d.children.any (fun c => c.2.hash.isNone) = false)
    (hstored : object_exists store staged (d.hashPair.1 ++ DIR_SUFFIX) = false) :
    ∃ (r : DirectoryDefResponse) (staged' : List String),
      directory_def true store staged d rep = .ok (r, staged') ∧
      r.missing_files = (d.children.filter
        (fun c => !object_exists store staged (inodeStoreKey c.2))).map Prod.fst ∧
      (r.missing_files ≠ [] → staged' = staged) := by
  by_cases hmiss : ((d.children.filter
      (fun c => !object_exists store staged (inodeStoreKey c.2))).map
      Prod.fst).isEmpty = true
  · refine ⟨{ ref_hash := some d.hashPair.1 },
      staged ++ [d.hashPair.1 ++ DIR_SUFFIX], ?_, ?_, ?_⟩
    · simp [directory_def, hhash, hstored, hmiss]
    · rw [List.isEmpty_iff] at hmiss
      rw [hmiss]
    · intro hne
      exact absurd rfl hne
  · rw [Bool.not_eq_true] at hmiss
    refine ⟨_, staged,
      directory_def_missing_characterisation store staged d rep hhash hstored hmiss,
      rfl, fun _ => rfl⟩

/-- C2 witness: the theorem at a concrete one-child directory over an empty
store; the missing set is the single child. -/
theorem directory_def_missing_files_exact_witness :
    ∃ (r : DirectoryDefResponse) (staged' : List String),
      directory_def true [] [] ⟨[("a", exInode)]⟩ none = .ok (r, staged') ∧
      r.missing_files = ((Directory.mk [("a", exInode)]).children.filter
        (fun c => !object_exists [] [] (inodeStoreKey c.2))).map Prod.fst ∧
      (r.missing_files ≠ [] → staged' = []) :=
  directory_def_missing_files_exact [] [] ⟨[("a", exInode)]⟩ none
    (by decide) (by decide)

/-- Reading all bytes of the partial up to its own size reproduces it. -/
theorem readZeroPadded_length_self (f : List Nat) : readZeroPadded f f.length = f := by
  simp [readZeroPadded]

/-- Writing at the current end of the partial appends. -/
theorem writeAt_length_append (f c : List Nat) : writeAt f f.length c = f ++ c := by
  simp [writeAt, readZeroPadded, List.drop_eq_nil_of_le]

/-- A resuming non-final call at the current cursor appends its chunk to the
partial file. -/
theorem upload_step_eval (store staged : List String) (f c : List Nat) :
    upload_file_content true store staged (some f) c (some f.length) false =
      .ok ⟨some (f ++ c), none, none⟩ := by
  simp [upload_file_content, writeAt_length_append]

/-- The first non-final call creates the partial holding its chunk. -/
theorem upload_first_eval (store staged : List String) (c : List Nat) :
    upload_file_content true store staged none c none false =
      .ok ⟨some c, none, none⟩ := by
  simp [upload_file_content]

/-- A final call on an existing partial, resuming at the cursor, returns the
digest of the partial's bytes followed by the final chunk. -/
theorem upload_final_some_result (store staged : List String) (f c : List Nat) :
    ∃ out : UploadOutcome,
      upload_file_content true store staged (some f) c (some f.length) true = .ok out ∧
      out.result = some (hash_content (f ++ c)) := by
  by_cases h : object_exists store staged (hash_content (f ++ c)) = true
  · refine ⟨⟨none, none, some (hash_content (f ++ c))⟩, ?_, rfl⟩
    simp [upload_file_content, readZeroPadded_length_self, h]
  · rw [Bool.not_eq_true] at h
    refine ⟨⟨none, some (hash_content (f ++ c), f ++ c), some (hash_content (f ++ c))⟩,
      ?_, rfl⟩
    simp [upload_file_content, readZeroPadded_length_self, writeAt_length_append, h]

/-- A single-call upload (no prior partial) returns the digest of its
content. -/
theorem upload_final_none_result (store staged : List String) (c : List Nat) :
    ∃ out : UploadOutcome,
      upload_file_content true store staged none c none true = .ok out ∧
      out.result = some (hash_content c) := by
  by_cases h : object_exists store staged (hash_content c) = true
  · refine ⟨⟨none, none, some (hash_content c)⟩, ?_, rfl⟩
    simp [upload_file_content, h]
  · rw [Bool.not_eq_true] at h
    refine ⟨⟨none, some (hash_content c, c), some (hash_content c)⟩, ?_, rfl⟩
    simp [upload_file_content, h]

/-- Running a valid sequence of non-final calls starting from an existing
partial appends every chunk in order. -/
theorem runUploads_valid_some (store staged : List String) :
    ∀ (calls : List (List Nat × Option Nat)) (f : List Nat),
      ValidSeq (some f) calls = true →
      runUploads store staged (some f) calls =
        .ok (some (f ++ (calls.map Prod.fst).flatten)) := by
  intro calls
  induction calls with
  | nil =>
    intro f _
    simp [runUploads]
  | cons hd tl ih =>
    intro f hv
    obtain ⟨c, rf⟩ := hd
    simp only [ValidSeq, Bool.and_eq_true, beq_iff_eq] at hv
    obtain ⟨hrf, htl⟩ := hv
    subst hrf
    rw [runUploads, upload_step_eval]
    show runUploads store staged (some (f ++ c)) tl = _
    rw [ih (f ++ c) htl]
    simp

/-- C3: for every sequence of `is_complete=false` calls with correctly
increasing `resume_from`s followed by one final `is_complete=true` call, the
digest returned by the final call is the SHA-256 (lowercase hex) of the
concatenation of all bytes supplied across the sequence. -/
theorem upload_sequence_digest (store staged : List String)
    (calls : List (List Nat × Option Nat)) (finalChunk : List Nat)
    (hvalid : ValidSeq none calls = true) :
    runUploadSequence store staged calls finalChunk =
      .ok (some (hash_content ((calls.map Prod.fst).flatten ++ finalChunk))) := by
  cases calls with
  | nil =>
    obtain ⟨out, hout, hres⟩ := upload_final_none_result store staged finalChunk
    simp [runUploadSequence, runUploads, cursorOf, hout, hres]
  | cons hd tl =>
    obtain ⟨c, rf⟩ := hd
    simp only [ValidSeq, Bool.and_eq_true, beq_iff_eq] at hvalid
    obtain ⟨hrf, htl⟩ := hvalid
    subst hrf
    have hrun : runUploads store staged none ((c, none) :: tl) =
        .ok (some (c ++ (tl.map Prod.fst).flatten)) := by
      rw [runUploads, upload_first_eval]
      exact runUploads_valid_some store staged tl c htl
    obtain ⟨out, hout, hres⟩ :=
      upload_final_some_result store staged (c ++ (tl.map Prod.fst).flatten) finalChunk
    simp only [runUploadSequence, hrun, cursorOf]
    rw [hout]
    simp [hres]

/-- C3 witness: a three-chunk upload (two resuming non-final calls, one
final call) over an empty store digests the concatenated bytes. -/
theorem upload_sequence_digest_witness :
    ValidSeq none [([1, 2], none), ([3], some 2)] = true ∧
    runUploadSequence [] [] [([1, 2], none), ([3], some 2)] [4, 5] =
      .ok (some (hash_content [1, 2, 3, 4, 5])) :=
  ⟨by decide, upload_sequence_digest [] [] [([1, 2], none), ([3], some 2)] [4, 5] (by decide)⟩

/-! ## The directory codec is deterministic (C6) -/

/-- A list of entries that is key-sorted and duplicate-free in its keys is
strictly key-sorted. -/
theorem pairwise_key_lt_of_le_ne (l : List (String × Inode))
    (hs : l.Pairwise entryLE) (hn : l.Pairwise (fun a b => a.1 ≠ b.1)) :
    l.Pairwise (fun a b => a.1 < b.1) := by
  induction l with
  | nil => exact List.Pairwise.nil
  | cons x xs ih =>
    rw [List.pairwise_cons] at hs hn ⊢
    exact ⟨fun b hb => lt_of_le_of_ne (hs.1 b hb) (hn.1 b hb), ih hs.2 hn.2⟩

/-- Sorting two permutations of the same duplicate-free entry list yields
the same list: the serialisation order is a function of the mapping alone. -/
theorem insertionSort_eq_of_perm (l₁ l₂ : List (String × Inode))
    (hnd : l₁.Pairwise (fun a b => a.1 ≠ b.1)) (hp : l₁.Perm l₂) :
    l₁.insertionSort entryLE = l₂.insertionSort entryLE := by
  have hs₁ := List.sorted_insertionSort entryLE l₁
  have hs₂ := List.sorted_insertionSort entryLE l₂
  have hp₁ : (l₁.insertionSort entryLE).Perm (l₂.insertionSort entryLE) :=
    (List.perm_insertionSort entryLE l₁).trans
      (hp.trans (List.perm_insertionSort entryLE l₂).symm)
  have hnd₁ : (l₁.insertionSort entryLE).Pairwise (fun a b => a.1 ≠ b.1) :=
    ((List.perm_insertionSort entryLE l₁).pairwise_iff (fun h => Ne.symm h)).mpr hnd
  have hnd₂ : (l₂.insertionSort entryLE).Pairwise (fun a b => a.1 ≠ b.1) :=
    (hp₁.pairwise_iff (fun h => Ne.symm h)).mp hnd₁
  haveI : IsAntisymm (String × Inode) (fun a b => a.1 < b.1) :=
    ⟨fun _ _ h1 h2 => absurd h2 (not_lt.mpr (le_of_lt h1))⟩
  exact List.eq_of_perm_of_sorted hp₁
    (pairwise_key_lt_of_le_ne _ hs₁ hnd₁)
    (pairwise_key_lt_of_le_ne _ hs₂ hnd₂)

/-- Byte decomposition of a string concatenation. -/
theorem asciiBytes_append (a b : String) :
    asciiBytes (a ++ b) = asciiBytes a ++ asciiBytes b := by
  simp [asciiBytes, String.data_append]

/-- The serialised form always ends with the closing brace byte. -/
theorem renderEntries_last_byte (l : List (String × Inode)) :
    (asciiBytes (renderEntries l)).getLast? = some 125 := by
  rw [renderEntries, asciiBytes_append]
  have : asciiBytes "\x7d" = [125] := rfl
  rw [this]
  exact List.getLast?_concat _

/-- C6: the directory codec is deterministic.  The serialisation renders the
entries in lexicographic key order, so for duplicate-free directories it is
a function of the mapping alone (invariant under re-ordering); it never ends
in a newline byte (it ends in the closing brace); and the empty directory
serialises to exactly the two bytes of the empty JSON object, whose SHA-256
digest is the fixed constant. -/
theorem directory_codec_deterministic :
    (∀ d₁ d₂ : Directory, d₁.children.Pairwise (fun a b => a.1 ≠ b.1) →
      d₁.children.Perm d₂.children → d₁.dump = d₂.dump) ∧
    (∀ d : Directory, (d.children.insertionSort entryLE).Perm d.children ∧
      (d.children.insertionSort entryLE).Sorted entryLE ∧
      d.dump = renderEntries (d.children.insertionSort entryLE)) ∧
    (∀ d : Directory, (asciiBytes d.dump).getLast? = some 125 ∧
      (asciiBytes d.dump).getLast? ≠ some 10) ∧
    Directory.dump ⟨[]⟩ = "\x7b\x7d" ∧
    asciiBytes (Directory.dump ⟨[]⟩) = [123, 125] ∧
    hash_content (asciiBytes (Directory.dump ⟨[]⟩)) =
      "44136fa355b3678a1146ad16f7e8649e94fb4fc21fe77e8310c060f61caaff8a" := by
  refine ⟨?_, ?_, ?_, by decide, by decide, by decide⟩
  · intro d₁ d₂ hnd hp
    show renderEntries _ = renderEntries _
    rw [insertionSort_eq_of_perm d₁.children d₂.children hnd hp]
  · intro d
    exact ⟨List.perm_insertionSort entryLE d.children,
      List.sorted_insertionSort entryLE d.children, rfl⟩
  · intro d
    have h := renderEntries_last_byte (d.children.insertionSort entryLE)
    refine ⟨h, ?_⟩
    rw [show asciiBytes d.dump = asciiBytes (renderEntries (d.children.insertionSort entryLE)) from rfl, h]
    simp

/-- C6 witness: two orderings of the same two-child mapping serialise to the
same bytes. -/
theorem directory_codec_deterministic_witness :
    (Directory.mk [("b", exInodeB), ("a", exInode)]).children.Pairwise
      (fun a b => a.1 ≠ b.1) ∧
    (Directory.mk [("b", exInodeB), ("a", exInode)]).children.Perm
      (Directory.mk [("a", exInode), ("b", exInodeB)]).children ∧
    (Directory.mk [("b", exInodeB), ("a", exInode)]).dump =
      (Directory.mk [("a", exInode), ("b", exInodeB)]).dump := by
  refine ⟨?_, ?_, ?_⟩
  · decide
  · decide
  · exact directory_codec_deterministic.1 ⟨[("b", exInodeB), ("a", exInode)]⟩
      ⟨[("a", exInode), ("b", exInodeB)]⟩ (by decide) (by decide)

end Hashback

